import Mathlib

/-!
Verification of the fcp-core command layer: a shallow embedding of the
event log (`fcp_core/event_log.py`), the tokenizer and key:value
classifier (`fcp_core/tokenizer.py`), the operation parser
(`fcp_core/parsed_op.py`) and the session dispatcher
(`fcp_core/session.py`), together with theorems settling the frozen
claims about them.

Conventions of the embedding:
  * Python lists become Lean `List`, machine-free integers become `Nat`
    (all indices and cursors in the source are non-negative).
  * The Python dict `_checkpoints : dict[str, int]` is modelled as the
    lookup function `String → Option Nat`; dict assignment and the
    pruning dict-comprehensions become pointwise function updates.
  * Methods that mutate `self` become functions `EventLog T → ... →
    EventLog T × result`, threading the state explicitly.
  * Python exceptions become `Except String`.
-/

namespace FcpCore

/-- A slot of the event list: either a domain event (opaque `T`) or the
`CheckpointEvent` sentinel of `event_log.py`, which carries only a name. -/
inductive Slot (T : Type) where
  | ev (e : T)
  | cp (name : String)
deriving DecidableEq, Repr

/-- The state of `EventLog` (`event_log.py`): the `_events` list, the
`_cursor`, and the `_checkpoints` dict viewed as a lookup function. -/
structure EventLog (T : Type) where
  events : List (Slot T)
  cursor : Nat
  checkpoints : String → Option Nat

/-- `EventLog.__init__`: empty list, cursor 0, empty checkpoint dict. -/
def EventLog.empty (T : Type) : EventLog T :=
  { events := [], cursor := 0, checkpoints := fun _ => none }

/-- The dict comprehension `{name: pos for name, pos in checkpoints.items()
if pos <= cursor}` used by `append` and `checkpoint`. -/
def pruneCheckpoints (cps : String → Option Nat) (cursor : Nat) :
    String → Option Nat :=
  fun n =>
    match cps n with
    | some p => if p ≤ cursor then some p else none
    | none => none

/-- `EventLog.append`: if `cursor < len(events)` truncate the list to the
cursor and prune checkpoints beyond it, then push the event and advance
the cursor. -/
def EventLog.append (l : EventLog T) (e : T) : EventLog T :=
  let l' :=
    if l.cursor < l.events.length then
      { l with
        events := l.events.take l.cursor
        checkpoints := pruneCheckpoints l.checkpoints l.cursor }
    else l
  { l' with events := l'.events ++ [Slot.ev e], cursor := l'.cursor + 1 }

/-- `EventLog.checkpoint`: record `checkpoints[name] = cursor` first, then
the same truncate-and-prune logic as `append`, then push the sentinel and
advance the cursor. -/
def EventLog.checkpoint (l : EventLog T) (name : String) : EventLog T :=
  let cps := fun n => if n = name then some l.cursor else l.checkpoints n
  let l2 :=
    if l.cursor < l.events.length then
      { l with
        events := l.events.take l.cursor
        checkpoints := pruneCheckpoints cps l.cursor }
    else { l with checkpoints := cps }
  { l2 with events := l2.events ++ [Slot.cp name], cursor := l2.cursor + 1 }

/-- The `while remaining > 0 and cursor > 0` loop of `EventLog.undo`.
Returns the final cursor and the collected events (most-recent-first).
The `none` branch of the list lookup is unreachable for every log the
class can actually build (`cursor ≤ len(events)` throughout); Python
would raise `IndexError` there, the model treats it like a skipped slot. -/
def undoLoop (events : List (Slot T)) : Nat → Nat → List T → Nat × List T
  | cursor, 0, acc => (cursor, acc)
  | 0, _ + 1, acc => (0, acc)
  | c + 1, r + 1, acc =>
    match events[c]? with
    | some (Slot.cp _) => undoLoop events c (r + 1) acc
    | some (Slot.ev e) => undoLoop events c r (acc ++ [e])
    | none => undoLoop events c (r + 1) acc

/-- `EventLog.undo(count)`: move the cursor back by `count` domain events,
skipping sentinels; returns the reversed-over events most-recent-first. -/
def EventLog.undo (l : EventLog T) (count : Nat := 1) : EventLog T × List T :=
  let r := undoLoop l.events l.cursor count []
  ({ l with cursor := r.1 }, r.2)

/-- The `while cursor > target` loop of `EventLog.undo_to`.  As in
`undoLoop`, an out-of-range lookup is unreachable for logs the class
builds and is treated like a sentinel slot. -/
def undoToLoop (events : List (Slot T)) (target : Nat) :
    Nat → List T → Nat × List T
  | 0, acc => (0, acc)
  | c + 1, acc =>
    if c + 1 > target then
      match events[c]? with
      | some (Slot.ev e) => undoToLoop events target c (acc ++ [e])
      | _ => undoToLoop events target c acc
    else (c + 1, acc)

/-- `EventLog.undo_to(name)`: `None` (here `none`) when the name is not in
the checkpoint dict, otherwise walk back to the recorded position. -/
def EventLog.undoTo (l : EventLog T) (name : String) :
    EventLog T × Option (List T) :=
  match l.checkpoints name with
  | none => (l, none)
  | some target =>
    let r := undoToLoop l.events target l.cursor []
    ({ l with cursor := r.1 }, some r.2)

/-- The `while remaining > 0 and cursor < len(events)` loop of
`EventLog.redo`.  The fuel argument is `events.length - cursor`, the
number of slots to the right of the cursor, which bounds the loop: fuel
`0` is exactly the failure of the `cursor < len(events)` guard, and the
`none` lookup branch cannot be reached when the fuel is exact. -/
def redoLoopAux (events : List (Slot T)) :
    Nat → Nat → Nat → List T → Nat × List T
  | 0, cursor, _, acc => (cursor, acc)
  | _ + 1, cursor, 0, acc => (cursor, acc)
  | k + 1, cursor, r + 1, acc =>
    match events[cursor]? with
    | some (Slot.cp _) => redoLoopAux events k (cursor + 1) (r + 1) acc
    | some (Slot.ev e) => redoLoopAux events k (cursor + 1) r (acc ++ [e])
    | none => (cursor, acc)

/-- `EventLog.redo(count)`: replay up to `count` events forward from the
cursor, skipping sentinels, returning them in forward order. -/
def EventLog.redo (l : EventLog T) (count : Nat := 1) : EventLog T × List T :=
  let r := redoLoopAux l.events (l.events.length - l.cursor) l.cursor count []
  ({ l with cursor := r.1 }, r.2)

/-- The `while len(result) < count and idx >= 0` loop of
`EventLog.recent`; the Python index `idx` is the Lean fuel minus one. -/
def recentLoop (events : List (Slot T)) (count : Nat) :
    Nat → List T → List T
  | 0, result => result
  | i + 1, result =>
    if result.length < count then
      match events[i]? with
      | some (Slot.ev e) => recentLoop events count i (result ++ [e])
      | _ => recentLoop events count i result
    else result

/-- `EventLog.recent(count)`: the last `count` domain events before the
cursor, oldest-first.  The method reads but never assigns state, which the
embedding records by returning the log unchanged alongside the result. -/
def EventLog.recent (l : EventLog T) (count : Nat := 5) :
    EventLog T × List T :=
  (l, (recentLoop l.events count l.cursor []).reverse)

/-- `append` folded over a list of events, for stating bulk properties. -/
def EventLog.appendAll (l : EventLog T) (es : List T) : EventLog T :=
  es.foldl EventLog.append l

/-- The domain event carried by a slot, `none` for the sentinel (the
`isinstance(ev, CheckpointEvent)` test of the source). -/
def slotEvent : Slot T → Option T
  | Slot.ev e => some e
  | Slot.cp _ => none

/-- The logs that a fresh `EventLog()` can evolve into through its public
methods; claims about "every event log" range over these. -/
inductive Reachable {T : Type} : EventLog T → Prop where
  | empty : Reachable (EventLog.empty T)
  | append (l : EventLog T) (e : T) : Reachable l → Reachable (l.append e)
  | checkpoint (l : EventLog T) (name : String) :
      Reachable l → Reachable (l.checkpoint name)
  | undo (l : EventLog T) (n : Nat) : Reachable l → Reachable (l.undo n).1
  | undoTo (l : EventLog T) (name : String) :
      Reachable l → Reachable (l.undoTo name).1
  | redo (l : EventLog T) (n : Nat) : Reachable l → Reachable (l.redo n).1

/-- Structural invariant of reachable logs: the cursor stays inside the
list and every recorded checkpoint position stays inside the list. -/
def LogInv (l : EventLog T) : Prop :=
  l.cursor ≤ l.events.length ∧
    ∀ n p, l.checkpoints n = some p → p ≤ l.events.length

/-! ## Tokenizer (`tokenizer.py`) -/

/-- `_WHITESPACE = frozenset(" \t\n\r")`. -/
def isWS (c : Char) : Bool :=
  c = ' ' || c = '\t' || c = '\n' || c = '\r'

/-- The two quote characters recognised by the tokenizer. -/
def isQuoteChar (c : Char) : Bool :=
  c = '"' || c = '\''

/-- A token plus the `was_quoted` flag (`TokenMeta` of the source). -/
structure TokenMeta where
  text : String
  wasQuoted : Bool
deriving DecidableEq, Repr

/-- `_consume_quoted`: consume characters until the matching quote,
returning the content (delimiters excluded) and the remainder after the
closing quote; `none` is the `ValueError("No closing quotation")`. -/
def consumeQuoted (quoteChar : Char) : List Char → Option (List Char × List Char)
  | [] => none
  | c :: cs =>
    if c = quoteChar then some ([], cs)
    else
      match consumeQuoted quoteChar cs with
      | some r => some (c :: r.1, r.2)
      | none => none

/-- The unquoted-token accumulation loop of `tokenize_with_meta` (source
lines 79–97).  The mode is `none` while scanning plain characters (the
outer `while`, stopping at whitespace) and `some q` inside an embedded
quoted span opened by `q` (the inner `while`, which keeps the delimiters
in the token and tolerates a missing closing quote at end of input).
Returns the token characters and the unconsumed remainder. -/
def unquotedScan : Option Char → List Char → List Char × List Char
  | _, [] => ([], [])
  | none, c :: cs =>
    if isWS c then ([], c :: cs)
    else if isQuoteChar c then
      let r := unquotedScan (some c) cs
      (c :: r.1, r.2)
    else
      let r := unquotedScan none cs
      (c :: r.1, r.2)
  | some q, c :: cs =>
    if c = q then
      let r := unquotedScan none cs
      (c :: r.1, r.2)
    else
      let r := unquotedScan (some q) cs
      (c :: r.1, r.2)

/-- The outer `while i < n` loop of `tokenize_with_meta`.  Every
iteration consumes at least one character, so the input length bounds the
iteration count; the fuel argument carries that bound (the fuel-0 case is
unreachable when the fuel starts at the input length). -/
def tokenizeFuel : Nat → List Char → Except String (List TokenMeta)
  | 0, _ => Except.ok []
  | _ + 1, [] => Except.ok []
  | n + 1, c :: cs =>
    if isWS c then tokenizeFuel n cs
    else if isQuoteChar c then
      match consumeQuoted c cs with
      | none => Except.error "No closing quotation"
      | some r =>
        (tokenizeFuel n r.2).map fun ts => { text := String.mk r.1, wasQuoted := true } :: ts
    else
      let r := unquotedScan none (c :: cs)
      (tokenizeFuel n r.2).map fun ts => { text := String.mk r.1, wasQuoted := false } :: ts

/-- `tokenize_with_meta(op_string)`; `Except.error` is the `ValueError`
raised for an unclosed standalone quote. -/
def tokenizeWithMeta (opString : String) : Except String (List TokenMeta) :=
  tokenizeFuel opString.toList.length opString.toList

/-- `tokenize(op_string)`: the token texts only. -/
def tokenize (opString : String) : Except String (List String) :=
  (tokenizeWithMeta opString).map fun ts => ts.map TokenMeta.text

/-- Modelled from the spec (§4.1): an input contains a standalone quote
that is opened and never closed before end of input.  Scanning mirrors
the tokenizer's walk: skip whitespace, and at a token that begins with a
quote character demand a matching closing quote; all other tokens
(including ones with embedded, possibly unclosed, quotes) are skipped. -/
def unclosedQuoteFuel : Nat → List Char → Bool
  | 0, _ => false
  | _ + 1, [] => false
  | n + 1, c :: cs =>
    if isWS c then unclosedQuoteFuel n cs
    else if isQuoteChar c then
      match consumeQuoted c cs with
      | none => true
      | some r => unclosedQuoteFuel n r.2
    else unclosedQuoteFuel n (unquotedScan none (c :: cs)).2

/-- Modelled from the spec (§4.1): see `unclosedQuoteFuel`. -/
def hasUnclosedQuote (opString : String) : Bool :=
  unclosedQuoteFuel opString.toList.length opString.toList

/-- Python `c in s` for a single character, on the char list (the
byte-position-based `String.contains` does not evaluate under the
kernel; this form is definitionally list-structural). -/
def strContainsChar (s : String) (c : Char) : Bool :=
  s.toList.contains c

/-- Python `s.startswith(pre)`, on the char lists. -/
def strStartsWith (s pre : String) : Bool :=
  pre.toList.isPrefixOf s.toList

/-- Python `s[n:]`, on the char lists. -/
def strDropChars (s : String) (n : Nat) : String :=
  String.mk (s.toList.drop n)

/-! ## key:value detection (`tokenizer.py`, lines 115–198) -/

/-- `[A-Za-z]` (the ranges of the cell-reference regex are literal
ASCII ranges). -/
def charIsAsciiLetter (c : Char) : Bool :=
  ('A' ≤ c && c ≤ 'Z') || ('a' ≤ c && c ≤ 'z')

/-- `\d` of the source regexes, read as the ASCII digits (Python's `\d`
also admits non-ASCII decimal digits; op-string tokens are ASCII). -/
def charIsDigit (c : Char) : Bool :=
  '0' ≤ c && c ≤ '9'

/-- `_CELL_REF_RE = ^[A-Za-z]{1,3}\d+$`.  A full match must spend the
whole leading letter run on the letter part (digits are not letters), so
the anchored regex is equivalent to: the maximal letter run has length
1–3 and the non-empty remainder is all digits. -/
def matchCellRef (cs : List Char) : Bool :=
  let letters := cs.takeWhile charIsAsciiLetter
  let rest := cs.dropWhile charIsAsciiLetter
  decide (1 ≤ letters.length) && decide (letters.length ≤ 3) &&
    !rest.isEmpty && rest.all charIsDigit

/-- `_ROW_REF_RE = ^[0-9]+$`. -/
def matchRowRef (cs : List Char) : Bool :=
  !cs.isEmpty && cs.all charIsDigit

/-- `s.split(sep, 1)` when `sep` occurs: the parts before and after the
first occurrence, or `none` when `sep` does not occur. -/
def splitFirst (sep : Char) : List Char → Option (List Char × List Char)
  | [] => none
  | c :: cs =>
    if c = sep then some ([], cs)
    else
      match splitFirst sep cs with
      | some p => some (c :: p.1, p.2)
      | none => none

/-- `_is_cell_range(token)`: strip an optional `sheet!` part (everything
up to the first `!`), require a `:`, split at the first `:`, require both
sides non-empty, and accept a cell:cell or row:row pair. -/
def isCellRange (token : String) : Bool :=
  let ref :=
    match splitFirst '!' token.toList with
    | some p => p.2
    | none => token.toList
  match splitFirst ':' ref with
  | none => false
  | some lr =>
    if lr.1.isEmpty || lr.2.isEmpty then false
    else
      (matchCellRef lr.1 && matchCellRef lr.2) ||
        (matchRowRef lr.1 && matchRowRef lr.2)

/-- `is_key_value(token)`. -/
def isKeyValue (token : String) : Bool :=
  if strStartsWith token "@" then false
  else if decide (("->".toList) <:+: token.toList) then false
  else if strStartsWith token "=" then false
  else if isCellRange token then false
  else strContainsChar token ':'

/-- The quote-stripping step of `parse_key_value`: remove a single
matching pair of surrounding quotes from a value of length ≥ 2. -/
def stripMatchingQuotes (v : String) : String :=
  let cs := v.toList
  if 2 ≤ cs.length ∧ cs.head? = cs.getLast? ∧
      (cs.head? = some '"' ∨ cs.head? = some '\'') then
    String.mk (cs.drop 1).dropLast
  else v

/-- `parse_key_value(token)`: split on the first `:` (`str.partition`,
key and empty value when there is no `:`), then strip surrounding quotes
from the value. -/
def parseKeyValue (token : String) : String × String :=
  match splitFirst ':' token.toList with
  | some p => (String.mk p.1, stripMatchingQuotes (String.mk p.2))
  | none => (token, "")

/-- `is_selector(token)`. -/
def isSelector (token : String) : Bool :=
  strStartsWith token "@"

/-- `str.lower()`, modelled as per-character lowercasing of the char
list (`String.toLower` itself recurses on byte positions, which blocks
kernel evaluation; this form is definitionally list-structural). -/
def strLower (s : String) : String :=
  String.mk (s.toList.map Char.toLower)

/-! ## Operation parser (`parsed_op.py`) -/

/-- A successfully parsed operation (`ParsedOp`).  The Python `params`
dict is modelled as an insertion-ordered association list with unique
keys (`dictInsert` below reproduces dict assignment). -/
structure ParsedOp where
  verb : String
  positionals : List String
  params : List (String × String)
  selectors : List String
  raw : String
deriving DecidableEq, Repr

/-- A parsing failure (`ParseError`). -/
structure ParseError where
  error : String
  raw : String
deriving DecidableEq, Repr

/-- Python dict assignment `d[k] = v`: overwrite in place if the key is
present (keeping its position), otherwise append. -/
def dictInsert (d : List (String × String)) (k v : String) :
    List (String × String) :=
  match d with
  | [] => [(k, v)]
  | kv :: rest =>
    if kv.1 = k then (kv.1, v) :: rest else kv :: dictInsert rest k v

/-- Python `d.get(k)` on the association-list model. -/
def dictLookup (d : List (String × String)) (k : String) : Option String :=
  match d with
  | [] => none
  | kv :: rest => if kv.1 = k then some kv.2 else dictLookup rest k

/-- The three output sequences the classification loop of `parse_op`
accumulates. -/
structure ClassAcc where
  selectors : List String
  params : List (String × String)
  positionals : List String
deriving DecidableEq, Repr

/-- The body of the `for token in rest` loop of `parse_op` (source lines
78–92): selector, then standalone-quoted, then the domain override, then
key:value, else positional. -/
def classifyStep (isPositional : Option (String → Bool)) (acc : ClassAcc)
    (token : TokenMeta) : ClassAcc :=
  let text := token.text
  if isSelector text then { acc with selectors := acc.selectors ++ [text] }
  else if token.wasQuoted then
    { acc with positionals := acc.positionals ++ [text] }
  else if (match isPositional with | some f => f text | none => false) then
    { acc with positionals := acc.positionals ++ [text] }
  else if isKeyValue text then
    let kv := parseKeyValue text
    { acc with params := dictInsert acc.params kv.1 kv.2 }
  else { acc with positionals := acc.positionals ++ [text] }

/-- `parse_op(op_string, is_positional)`. -/
def parseOp (opString : String) (isPositional : Option (String → Bool)) :
    Except ParseError ParsedOp :=
  let raw := opString.trim
  if raw = "" then Except.error { error := "Empty op string", raw := raw }
  else
    match tokenizeWithMeta raw with
    | Except.error exc =>
      Except.error { error := "Tokenization failed: " ++ exc, raw := raw }
    | Except.ok [] =>
      Except.error { error := "No tokens after tokenization", raw := raw }
    | Except.ok (t0 :: rest) =>
      let acc := rest.foldl (classifyStep isPositional)
        { selectors := [], params := [], positionals := [] }
      Except.ok
        { verb := strLower t0.text
          positionals := acc.positionals
          params := acc.params
          selectors := acc.selectors
          raw := raw }

/-- Modelled from the spec (§4.2 / claim C6): the range shape `1–3
letters plus digits on both sides of `:`, or digits on both sides of
`:`, optionally prefixed by a sheet name and `!` (the sheet name being
everything before the first `!`). -/
def specRangeShape (token : String) : Bool :=
  let body :=
    match splitFirst '!' token.toList with
    | some p => p.2
    | none => token.toList
  match splitFirst ':' body with
  | none => false
  | some lr =>
    (matchCellRef lr.1 && matchCellRef lr.2) ||
      (matchRowRef lr.1 && matchRowRef lr.2)

/-- Modelled from the spec (§4.2 / claim C6): a token becomes a
key:value param exactly when it contains `:`, does not start with `@`,
does not contain `->`, does not start with `=`, and does not match the
range shape. -/
def specKeyValueCond (token : String) : Bool :=
  strContainsChar token ':' && !(strStartsWith token "@") &&
    !(decide (("->".toList) <:+: token.toList)) && !(strStartsWith token "=") &&
    !(specRangeShape token)

/-- Modelled from the spec (§4.2 / claim C6): the claimed classification
precedence for a non-verb token, word for word — selector if it starts
with `@`; positional if standalone-quoted; positional if the supplied
predicate accepts it; key:value param under `specKeyValueCond`; otherwise
positional, appended in original order. -/
def specClassifyStep (isPositional : Option (String → Bool)) (acc : ClassAcc)
    (token : TokenMeta) : ClassAcc :=
  let text := token.text
  if strStartsWith text "@" then
    { acc with selectors := acc.selectors ++ [text] }
  else if token.wasQuoted then
    { acc with positionals := acc.positionals ++ [text] }
  else if (match isPositional with | some f => f text | none => false) then
    { acc with positionals := acc.positionals ++ [text] }
  else if specKeyValueCond text then
    let kv := parseKeyValue text
    { acc with params := dictInsert acc.params kv.1 kv.2 }
  else { acc with positionals := acc.positionals ++ [text] }

/-! ## Session dispatcher (`session.py`)

The hooks protocol and the reversal/replay callbacks are modelled as
functions returning `Except String`, where `Except.error` is a raised
exception.  Python mutates the model in place; the embedding passes the
(possibly updated) model back as a value instead.  A handler result of
`Except.ok (dispatcher, line)` is a normal return of one result line;
`Except.error` is an exception escaping the handler.  The session-string
splitter `_tokenize_session` (the `shlex` library plus a whitespace-split
fallback) is not part of this repository's logic and is not modelled:
the dispatcher is entered at the token-list level, which covers every
token list the splitter can produce. -/

/-- The `SessionHooks` protocol. -/
structure SessionHooks (M : Type) where
  onNew : List (String × String) → Except String M
  onOpen : String → Except String M
  onSave : M → String → Except String Unit
  onRebuildIndices : M → Except String M
  getDigest : M → String

/-- `SessionDispatcher`: hooks, the two event callbacks, and the mutable
session state (`_model`, `_file_path`, `_event_log`). -/
structure SessionDispatcher (M E : Type) where
  hooks : SessionHooks M
  reverseEvent : E → M → Except String M
  replayEvent : E → M → Except String M
  model : Option M
  filePath : Option String
  log : EventLog E

/-- `format_result(success, message, prefix="")` from `formatter.py`. -/
def formatResult (success : Bool) (message : String) (pfx : String := "") :
    String :=
  if pfx ≠ "" then pfx ++ " " ++ message
  else if success then "+ " ++ message
  else "! " ++ message

/-- Python's `repr` of a quote-free string, as used by the `{name!r}`
interpolations of `session.py`. -/
def pyRepr (s : String) : String :=
  "\x27" ++ s ++ "\x27"

/-- The param-building loop of `_handle_new`: a `key:value` argument
(colon present, not starting with a quote character) goes to the params
dict under its lowercased key; every other argument is positional. -/
def newParamCond (arg : String) : Bool :=
  strContainsChar arg ':' && !(strStartsWith arg "\"") && !(strStartsWith arg "\x27")

/-- The `for arg in args` loop of `_handle_new`, threading the params
dict and the positional list. -/
def newParamsLoop : List String → List (String × String) → List String →
    List (String × String) × List String
  | [], params, positional => (params, positional)
  | arg :: rest, params, positional =>
    if newParamCond arg then
      let kv := parseKeyValue arg
      newParamsLoop rest (dictInsert params (strLower kv.1) kv.2) positional
    else newParamsLoop rest params (positional ++ [arg])

/-- The params map `_handle_new` hands to `on_new`: the loop above,
then `params["title"] = positional[0]` whenever a positional exists. -/
def buildNewParams (args : List String) : List (String × String) :=
  let r := newParamsLoop args [] []
  match r.2 with
  | [] => r.1
  | p :: _ => dictInsert r.1 "title" p

/-- `_handle_new`: build params, call `on_new` (exceptions caught),
replace the model and reset the event log on success. -/
def handleNew (d : SessionDispatcher M E) (args : List String) :
    Except String (SessionDispatcher M E × String) :=
  let params := buildNewParams args
  match d.hooks.onNew params with
  | Except.ok m =>
    let title :=
      match dictLookup params "title" with
      | some t => t
      | none => "Untitled"
    Except.ok
      ({ d with model := some m, log := EventLog.empty E },
        formatResult true ("New session " ++ pyRepr title))
  | Except.error exc =>
    Except.ok (d, formatResult false ("Failed to create: " ++ exc))

/-- `_handle_open`: missing path fails; `on_open` then
`on_rebuild_indices` run inside the `try`, so an exception from either is
caught (state already assigned before the rebuild call stays assigned,
matching the source's in-place mutation order). -/
def handleOpen (d : SessionDispatcher M E) (args : List String) :
    Except String (SessionDispatcher M E × String) :=
  match args with
  | [] => Except.ok (d, formatResult false "Missing file path")
  | path :: _ =>
    match d.hooks.onOpen path with
    | Except.error exc =>
      Except.ok
        (d, formatResult false ("Failed to open " ++ pyRepr path ++ ": " ++ exc))
    | Except.ok m =>
      match d.hooks.onRebuildIndices m with
      | Except.ok m2 =>
        Except.ok
          ({ d with
              model := some m2
              filePath := some path
              log := EventLog.empty E },
            formatResult true ("Opened " ++ pyRepr path))
      | Except.error exc =>
        Except.ok
          ({ d with
              model := some m
              filePath := some path
              log := EventLog.empty E },
            formatResult false
              ("Failed to open " ++ pyRepr path ++ ": " ++ exc))

/-- The path-resolution loop of `_handle_save`: an `as:`-argument wins,
otherwise the last non-flag argument. -/
def resolveSavePath (args : List String) : Option String :=
  args.foldl
    (fun acc arg =>
      if strStartsWith arg "as:" then some (strDropChars arg 3)
      else if !(strStartsWith arg "-") then some arg
      else acc)
    none

/-- `_handle_save`: no model fails; resolve the path (argument, else the
remembered `file_path`, else fail); remember it; call `on_save` with
exceptions caught. -/
def handleSave (d : SessionDispatcher M E) (args : List String) :
    Except String (SessionDispatcher M E × String) :=
  match d.model with
  | none => Except.ok (d, formatResult false "No model to save")
  | some m =>
    let chosen :=
      match resolveSavePath args with
      | some p => some p
      | none => d.filePath
    match chosen with
    | none => Except.ok (d, formatResult false "No file path set")
    | some p =>
      let d2 := { d with filePath := some p }
      match d.hooks.onSave m p with
      | Except.ok _ =>
        Except.ok (d2, formatResult true ("Saved to " ++ pyRepr p))
      | Except.error exc =>
        Except.ok (d2, formatResult false ("Failed to save: " ++ exc))

/-- `_handle_checkpoint`: missing name fails; otherwise delegate to the
event log (no model required, no hook involved). -/
def handleCheckpoint (d : SessionDispatcher M E) (args : List String) :
    Except String (SessionDispatcher M E × String) :=
  match args with
  | [] => Except.ok (d, formatResult false "Missing checkpoint name")
  | name :: _ =>
    let lg := d.log.checkpoint name
    Except.ok
      ({ d with log := lg },
        formatResult true
          ("Checkpoint " ++ pyRepr name ++ " created (at event #" ++
            toString lg.cursor ++ ")"))

/-- The `to:` extraction loop of `_handle_undo` (last `to:` wins). -/
def undoToName (args : List String) : Option String :=
  args.foldl
    (fun acc arg => if strStartsWith arg "to:" then some (strDropChars arg 3) else acc)
    none

/-- The reversal loop `for ev in reversed_events: reverse_event(ev,
model)`; an exception propagates (the source has no `try` here). -/
def runEvents (step : E → M → Except String M) (evs : List E) (m : M) :
    Except String M :=
  match evs with
  | [] => Except.ok m
  | e :: rest =>
    match step e m with
    | Except.ok m2 => runEvents step rest m2
    | Except.error exc => Except.error exc

/-- `_handle_undo`: no model fails; `undo_to` for a `to:` argument
(unknown checkpoint fails), else single-step `undo`; an empty result is
the "Nothing to undo" failure (the log keeps any cursor movement already
made); then the reversal callbacks and `on_rebuild_indices` run with no
exception handling, so their errors escape. -/
def handleUndo (d : SessionDispatcher M E) (args : List String) :
    Except String (SessionDispatcher M E × String) :=
  match d.model with
  | none => Except.ok (d, formatResult false "No model loaded")
  | some m =>
    match undoToName args with
    | some name =>
      match d.log.undoTo name with
      | (_, none) =>
        Except.ok (d, formatResult false ("No checkpoint named " ++ pyRepr name))
      | (lg, some revs) =>
        if revs.isEmpty then
          Except.ok ({ d with log := lg }, formatResult false "Nothing to undo")
        else
          match runEvents d.reverseEvent revs m with
          | Except.error exc => Except.error exc
          | Except.ok m2 =>
            match d.hooks.onRebuildIndices m2 with
            | Except.error exc => Except.error exc
            | Except.ok m3 =>
              Except.ok
                ({ d with log := lg, model := some m3 },
                  formatResult true
                    ("Undone " ++ toString revs.length ++
                      " event(s) to checkpoint " ++ pyRepr name))
    | none =>
      let r := d.log.undo 1
      if r.2.isEmpty then
        Except.ok ({ d with log := r.1 }, formatResult false "Nothing to undo")
      else
        match runEvents d.reverseEvent r.2 m with
        | Except.error exc => Except.error exc
        | Except.ok m2 =>
          match d.hooks.onRebuildIndices m2 with
          | Except.error exc => Except.error exc
          | Except.ok m3 =>
            Except.ok
              ({ d with log := r.1, model := some m3 },
                formatResult true
                  ("Undone " ++ toString r.2.length ++ " event(s)"))

/-- `_handle_redo`: no model fails; `redo()` (the handler ignores its
arguments); empty replay is the "Nothing to redo" failure; the replay
callbacks and `on_rebuild_indices` run unprotected, so their errors
escape. -/
def handleRedo (d : SessionDispatcher M E) (_args : List String) :
    Except String (SessionDispatcher M E × String) :=
  match d.model with
  | none => Except.ok (d, formatResult false "No model loaded")
  | some m =>
    let r := d.log.redo 1
    if r.2.isEmpty then
      Except.ok ({ d with log := r.1 }, formatResult false "Nothing to redo")
    else
      match runEvents d.replayEvent r.2 m with
      | Except.error exc => Except.error exc
      | Except.ok m2 =>
        match d.hooks.onRebuildIndices m2 with
        | Except.error exc => Except.error exc
        | Except.ok m3 =>
          Except.ok
            ({ d with log := r.1, model := some m3 },
              formatResult true
                ("Redone " ++ toString r.2.length ++ " event(s)"))

/-- `dispatch`, entered after `_tokenize_session`: the first token,
lowercased, selects the handler; anything else is the unknown-action
failure line. -/
def dispatchParts (d : SessionDispatcher M E) (parts : List String) :
    Except String (SessionDispatcher M E × String) :=
  let command :=
    match parts.head? with
    | some p => strLower p
    | none => ""
  let rest := parts.drop 1
  if command = "new" then handleNew d rest
  else if command = "open" then handleOpen d rest
  else if command = "save" then handleSave d rest
  else if command = "checkpoint" then handleCheckpoint d rest
  else if command = "undo" then handleUndo d rest
  else if command = "redo" then handleRedo d rest
  else
    Except.ok (d, formatResult false ("Unknown session action: " ++ pyRepr command))

/-- Hooks over the unit model whose calls all succeed, for concrete
session scenarios. -/
def unitHooks : SessionHooks Unit where
  onNew := fun _ => Except.ok ()
  onOpen := fun _ => Except.ok ()
  onSave := fun _ _ => Except.ok ()
  onRebuildIndices := fun m => Except.ok m
  getDigest := fun _ => ""

/-- A dispatcher whose `reverse_event` callback raises, with a model
loaded and one domain event in the log: dispatching `undo` must run the
callback. -/
def raisingRevDispatcher : SessionDispatcher Unit Unit where
  hooks := unitHooks
  reverseEvent := fun _ _ => Except.error "boom"
  replayEvent := fun _ m => Except.ok m
  model := some ()
  filePath := none
  log := (EventLog.empty Unit).append ()

/-- Hooks that return the params map as the model, making the argument
`_handle_new` passes to `on_new` observable. -/
def recordingHooks : SessionHooks (List (String × String)) where
  onNew := fun params => Except.ok params
  onOpen := fun _ => Except.ok []
  onSave := fun _ _ => Except.ok ()
  onRebuildIndices := fun m => Except.ok m
  getDigest := fun _ => ""

/-- A fresh dispatcher over the recording hooks. -/
def recordingDispatcher : SessionDispatcher (List (String × String)) Unit where
  hooks := recordingHooks
  reverseEvent := fun _ m => Except.ok m
  replayEvent := fun _ m => Except.ok m
  model := none
  filePath := none
  log := EventLog.empty Unit

/-- A dispatcher over the unit model with every callback succeeding and
one event applied, for witnessing the successful undo path. -/
def okDispatcher : SessionDispatcher Unit Unit where
  hooks := unitHooks
  reverseEvent := fun _ m => Except.ok m
  replayEvent := fun _ m => Except.ok m
  model := some ()
  filePath := none
  log := (EventLog.empty Unit).append ()

/-! ## Lemmas about the event log -/

theorem append_no_redo_tail (l : EventLog T) (e : T)
    (h : l.cursor = l.events.length) :
    l.append e =
      { events := l.events ++ [Slot.ev e], cursor := l.cursor + 1,
        checkpoints := l.checkpoints } := by
  unfold EventLog.append
  rw [if_neg (by omega)]

theorem appendAll_from_flush (es : List T) :
    ∀ (l : EventLog T), l.cursor = l.events.length →
      l.appendAll es =
        { events := l.events ++ es.map Slot.ev, cursor := l.cursor + es.length,
          checkpoints := l.checkpoints } := by
  induction es with
  | nil => intro l h; simp [EventLog.appendAll]
  | cons e es ih =>
    intro l h
    have h1 : (l.append e).cursor = (l.append e).events.length := by
      rw [append_no_redo_tail l e h]
      simp [h]
    have step : l.appendAll (e :: es) = (l.append e).appendAll es := by
      simp [EventLog.appendAll]
    rw [step, ih _ h1, append_no_redo_tail l e h]
    simp
    omega

theorem undoLoop_fst_le (events : List (Slot T)) (c : Nat) :
    ∀ (r : Nat) (acc : List T), (undoLoop events c r acc).1 ≤ c := by
  induction c with
  | zero => intro r acc; cases r <;> simp [undoLoop]
  | succ c ih =>
    intro r acc
    cases r with
    | zero => simp [undoLoop]
    | succ r =>
      simp only [undoLoop]
      cases h : events[c]? with
      | none => exact Nat.le_succ_of_le (ih (r + 1) acc)
      | some s =>
        cases s with
        | cp name => exact Nat.le_succ_of_le (ih (r + 1) acc)
        | ev e => exact Nat.le_succ_of_le (ih r (acc ++ [e]))

theorem undoLoop_pure (L : List T) (c : Nat) (hc : c ≤ L.length) :
    ∀ acc, undoLoop (L.map Slot.ev) c c acc = (0, acc ++ (L.take c).reverse) := by
  induction c with
  | zero => intro acc; simp [undoLoop]
  | succ c ih =>
    intro acc
    have hlt : c < L.length := by omega
    have hget : (L.map Slot.ev)[c]? = some (Slot.ev (L.get ⟨c, hlt⟩)) := by
      simp [List.getElem?_map, List.getElem?_eq_getElem hlt]
    simp only [undoLoop, hget]
    rw [ih (by omega) (acc ++ [L.get ⟨c, hlt⟩])]
    have ht : L.take (c + 1) = L.take c ++ [L.get ⟨c, hlt⟩] := by
      rw [List.take_succ]
      simp [List.getElem?_eq_getElem hlt]
    rw [ht, List.reverse_append]
    simp

theorem redoLoopAux_fst_le (events : List (Slot T)) (k : Nat) :
    ∀ (c r : Nat) (acc : List T), (redoLoopAux events k c r acc).1 ≤ c + k := by
  induction k with
  | zero => intro c r acc; simp [redoLoopAux]
  | succ k ih =>
    intro c r acc
    cases r with
    | zero => simp [redoLoopAux]
    | succ r =>
      cases h : events[c]? with
      | none => simp [redoLoopAux, h]
      | some s =>
        cases s with
        | cp name =>
          have := ih (c + 1) (r + 1) acc
          simp only [redoLoopAux, h]
          omega
        | ev e =>
          have := ih (c + 1) r (acc ++ [e])
          simp only [redoLoopAux, h]
          omega

theorem redoLoopAux_pure (L : List T) (k : Nat) :
    ∀ (c : Nat) (acc : List T), k = L.length - c → c ≤ L.length →
      redoLoopAux (L.map Slot.ev) k c k acc = (L.length, acc ++ L.drop c) := by
  induction k with
  | zero =>
    intro c acc hk hc
    have : c = L.length := by omega
    subst this
    simp [redoLoopAux]
  | succ k ih =>
    intro c acc hk hc
    have hlt : c < L.length := by omega
    have hget : (L.map Slot.ev)[c]? = some (Slot.ev (L.get ⟨c, hlt⟩)) := by
      simp [List.getElem?_map, List.getElem?_eq_getElem hlt]
    simp only [redoLoopAux, hget]
    rw [ih (c + 1) (acc ++ [L.get ⟨c, hlt⟩]) (by omega) (by omega)]
    have hd : L.drop c = L.get ⟨c, hlt⟩ :: L.drop (c + 1) := by
      rw [List.drop_eq_getElem_cons hlt]
      simp
    rw [hd]
    simp

theorem undoToLoop_fst_le (events : List (Slot T)) (t : Nat) (c : Nat) :
    ∀ acc, (undoToLoop events t c acc).1 ≤ c := by
  induction c with
  | zero => intro acc; simp [undoToLoop]
  | succ c ih =>
    intro acc
    simp only [undoToLoop]
    by_cases hgt : c + 1 > t
    · rw [if_pos hgt]
      cases h : events[c]? with
      | none => simp only [h]; exact Nat.le_succ_of_le (ih acc)
      | some s =>
        cases s with
        | cp name => simp only [h]; exact Nat.le_succ_of_le (ih acc)
        | ev e => simp only [h]; exact Nat.le_succ_of_le (ih (acc ++ [e]))
    · rw [if_neg hgt]

theorem pruneCheckpoints_le (cps : String → Option Nat) (c : Nat)
    (n : String) (p : Nat) (hp : pruneCheckpoints cps c n = some p) :
    p ≤ c ∧ cps n = some p := by
  unfold pruneCheckpoints at hp
  cases hq : cps n with
  | none => rw [hq] at hp; exact absurd hp (by simp)
  | some q =>
    rw [hq] at hp
    have hp2 : (if q ≤ c then some q else none) = some p := hp
    by_cases hqc : q ≤ c
    · rw [if_pos hqc] at hp2
      injection hp2 with hqp
      subst hqp
      exact ⟨hqc, rfl⟩
    · rw [if_neg hqc] at hp2
      exact absurd hp2 (by simp)

theorem append_eq_of_lt (l : EventLog T) (e : T)
    (hlt : l.cursor < l.events.length) :
    l.append e =
      { events := l.events.take l.cursor ++ [Slot.ev e],
        cursor := l.cursor + 1,
        checkpoints := pruneCheckpoints l.checkpoints l.cursor } := by
  unfold EventLog.append
  rw [if_pos hlt]

theorem append_eq_of_ge (l : EventLog T) (e : T)
    (hge : ¬ l.cursor < l.events.length) :
    l.append e =
      { events := l.events ++ [Slot.ev e], cursor := l.cursor + 1,
        checkpoints := l.checkpoints } := by
  unfold EventLog.append
  rw [if_neg hge]

theorem checkpoint_eq_of_lt (l : EventLog T) (name : String)
    (hlt : l.cursor < l.events.length) :
    l.checkpoint name =
      { events := l.events.take l.cursor ++ [Slot.cp name],
        cursor := l.cursor + 1,
        checkpoints :=
          pruneCheckpoints
            (fun n => if n = name then some l.cursor else l.checkpoints n)
            l.cursor } := by
  simp only [EventLog.checkpoint]
  rw [if_pos hlt]

theorem checkpoint_eq_of_ge (l : EventLog T) (name : String)
    (hge : ¬ l.cursor < l.events.length) :
    l.checkpoint name =
      { events := l.events ++ [Slot.cp name], cursor := l.cursor + 1,
        checkpoints :=
          fun n => if n = name then some l.cursor else l.checkpoints n } := by
  simp only [EventLog.checkpoint]
  rw [if_neg hge]

theorem logInv_append (l : EventLog T) (e : T) (h : LogInv l) :
    LogInv (l.append e) := by
  obtain ⟨hc, hk⟩ := h
  by_cases hlt : l.cursor < l.events.length
  · rw [append_eq_of_lt l e hlt]
    constructor
    · simp
      omega
    · intro n p hp
      have hp2 : pruneCheckpoints l.checkpoints l.cursor n = some p := hp
      have := pruneCheckpoints_le l.checkpoints l.cursor n p hp2
      simp
      omega
  · rw [append_eq_of_ge l e hlt]
    constructor
    · simp
      omega
    · intro n p hp
      have hp2 : l.checkpoints n = some p := hp
      have := hk n p hp2
      simp
      omega

theorem logInv_checkpoint (l : EventLog T) (name : String) (h : LogInv l) :
    LogInv (l.checkpoint name) := by
  obtain ⟨hc, hk⟩ := h
  by_cases hlt : l.cursor < l.events.length
  · rw [checkpoint_eq_of_lt l name hlt]
    constructor
    · simp
      omega
    · intro n p hp
      have hp2 : pruneCheckpoints
          (fun n => if n = name then some l.cursor else l.checkpoints n)
          l.cursor n = some p := hp
      have := pruneCheckpoints_le _ l.cursor n p hp2
      simp
      omega
  · rw [checkpoint_eq_of_ge l name hlt]
    constructor
    · simp
      omega
    · intro n p hp
      have hp2 : (if n = name then some l.cursor else l.checkpoints n) = some p := hp
      by_cases hn : n = name
      · rw [if_pos hn] at hp2
        injection hp2 with hcp
        simp
        omega
      · rw [if_neg hn] at hp2
        have := hk n p hp2
        simp
        omega

theorem logInv_undo (l : EventLog T) (n : Nat) (h : LogInv l) :
    LogInv (l.undo n).1 := by
  obtain ⟨hc, hk⟩ := h
  exact ⟨Nat.le_trans (undoLoop_fst_le l.events l.cursor n []) hc, hk⟩

theorem logInv_undoTo (l : EventLog T) (name : String) (h : LogInv l) :
    LogInv (l.undoTo name).1 := by
  obtain ⟨hc, hk⟩ := h
  cases ht : l.checkpoints name with
  | none => simpa [EventLog.undoTo, ht] using ⟨hc, hk⟩
  | some target =>
    simp only [EventLog.undoTo, ht]
    exact ⟨Nat.le_trans (undoToLoop_fst_le l.events target l.cursor []) hc, hk⟩

theorem logInv_redo (l : EventLog T) (n : Nat) (h : LogInv l) :
    LogInv (l.redo n).1 := by
  obtain ⟨hc, hk⟩ := h
  refine ⟨?_, hk⟩
  have := redoLoopAux_fst_le l.events (l.events.length - l.cursor) l.cursor n []
  simp only [EventLog.redo]
  omega

theorem logInv_reachable (l : EventLog T) (h : Reachable l) : LogInv l := by
  induction h with
  | empty => exact ⟨Nat.le_refl 0, fun n p hp => by simp [EventLog.empty] at hp⟩
  | append l e _ ih => exact logInv_append l e ih
  | checkpoint l name _ ih => exact logInv_checkpoint l name ih
  | undo l n _ ih => exact logInv_undo l n ih
  | undoTo l name _ ih => exact logInv_undoTo l name ih
  | redo l n _ ih => exact logInv_redo l n ih

theorem undoToLoop_spec (events : List (Slot T)) (t : Nat) :
    ∀ (c : Nat) (acc : List T), t ≤ c → c ≤ events.length →
      undoToLoop events t c acc =
        (t, acc ++ ((events.take c).drop t).reverse.filterMap slotEvent) := by
  intro c
  induction c with
  | zero =>
    intro acc ht _
    have : t = 0 := by omega
    subst this
    simp [undoToLoop]
  | succ c ih =>
    intro acc ht hlen
    by_cases heq : t = c + 1
    · subst heq
      simp only [undoToLoop]
      rw [if_neg (by omega)]
      have hnil : ((events.take (c + 1)).drop (c + 1)) = [] := by
        apply List.drop_eq_nil_of_le
        simp
      rw [hnil]
      simp
    · have htc : t ≤ c := by omega
      have hlt : c < events.length := by omega
      have hget : events[c]? = some events[c] := List.getElem?_eq_getElem hlt
      have htake : events.take (c + 1) = events.take c ++ [events[c]] := by
        rw [List.take_succ]
        simp [List.getElem?_eq_getElem hlt]
      have hdrop : (events.take (c + 1)).drop t =
          (events.take c).drop t ++ [events[c]] := by
        rw [htake, List.drop_append_of_le_length]
        simp
        omega
      simp only [undoToLoop]
      rw [if_pos (by omega)]
      cases hs : events[c] with
      | ev e =>
        rw [hget, hs]
        simp only
        rw [ih (acc ++ [e]) htc (by omega), hdrop, hs]
        simp [slotEvent]
      | cp nm =>
        rw [hget, hs]
        simp only
        rw [ih acc htc (by omega), hdrop, hs]
        simp [slotEvent]

/-! ## Theorems settling the claims -/

/-- C1: appending N domain events to a fresh log (no checkpoints), then
`undo(N)` followed by `redo(N)`, returns the N events most-recent-first
and then the same N events in forward order, restores the cursor to N,
and loses no event from the log. -/
theorem c1_undo_redo_roundtrip (T : Type) (es : List T) :
    ((EventLog.empty T).appendAll es).events = es.map Slot.ev ∧
    (((EventLog.empty T).appendAll es).undo es.length).2 = es.reverse ∧
    (((EventLog.empty T).appendAll es).undo es.length).1.cursor = 0 ∧
    (((((EventLog.empty T).appendAll es).undo es.length).1.redo es.length).2 = es) ∧
    (((((EventLog.empty T).appendAll es).undo es.length).1.redo es.length).1.cursor
      = es.length) ∧
    (((((EventLog.empty T).appendAll es).undo es.length).1.redo es.length).1.events
      = ((EventLog.empty T).appendAll es).events) := by
  have hall : (EventLog.empty T).appendAll es =
      { events := es.map Slot.ev, cursor := es.length,
        checkpoints := fun _ => none } := by
    rw [appendAll_from_flush es (EventLog.empty T) rfl]
    simp [EventLog.empty]
  have hundo : ((EventLog.empty T).appendAll es).undo es.length =
      ({ events := es.map Slot.ev, cursor := 0, checkpoints := fun _ => none },
        es.reverse) := by
    rw [hall]
    simp only [EventLog.undo]
    rw [undoLoop_pure es es.length (Nat.le_refl _) []]
    simp
  have hredo :
      (({ events := es.map Slot.ev, cursor := 0,
          checkpoints := fun _ => none } : EventLog T).redo es.length) =
      ({ events := es.map Slot.ev, cursor := es.length,
          checkpoints := fun _ => none }, es) := by
    simp only [EventLog.redo]
    have hlen : (es.map (Slot.ev (T := T))).length - 0 = es.length := by simp
    rw [hlen, redoLoopAux_pure es es.length 0 [] (by omega) (by omega)]
    simp
  refine ⟨by rw [hall], ?_, ?_, ?_, ?_, ?_⟩
  · rw [hundo]
  · rw [hundo]
  · rw [hundo, hredo]
  · rw [hundo, hredo]
  · rw [hundo, hredo, hall]

/-- C2, counterexample: the claim quantifies over all five mutating calls,
but `undo` moves the cursor back without touching the checkpoint dict.
After `append "a"; checkpoint "v1"; undo(1)` the cursor is 0 while
checkpoint `v1` still records position 1, and `1 ≤ 0` fails. -/
theorem c2_undo_breaks_checkpoint_bound :
    ((((EventLog.empty String).append "a").checkpoint "v1").undo 1).1.checkpoints "v1"
        = some 1 ∧
    ((((EventLog.empty String).append "a").checkpoint "v1").undo 1).1.cursor = 0 ∧
    ¬ (1 : Nat) ≤ 0 := by
  refine ⟨by decide, by decide, by decide⟩

/-- C2, amended: for every reachable log, immediately after `append` or
`checkpoint` (the two mutating calls that prune), every recorded
checkpoint position is at most the cursor.  `undo`, `undo_to` and `redo`
leave the checkpoint dict unchanged, so after them a recorded position
may exceed the cursor until the next `append`/`checkpoint` prunes it. -/
theorem c2_checkpoint_positions_bounded (l : EventLog T) (hl : Reachable l)
    (e : T) (name n : String) (p : Nat) :
    ((l.append e).checkpoints n = some p → p ≤ (l.append e).cursor) ∧
    ((l.checkpoint name).checkpoints n = some p → p ≤ (l.checkpoint name).cursor) := by
  obtain ⟨hc, hk⟩ := logInv_reachable l hl
  constructor
  · intro hp
    by_cases hlt : l.cursor < l.events.length
    · rw [append_eq_of_lt l e hlt] at hp ⊢
      have hp2 : pruneCheckpoints l.checkpoints l.cursor n = some p := hp
      have := pruneCheckpoints_le l.checkpoints l.cursor n p hp2
      simp
      omega
    · rw [append_eq_of_ge l e hlt] at hp ⊢
      have hp2 : l.checkpoints n = some p := hp
      have := hk n p hp2
      simp
      omega
  · intro hp
    by_cases hlt : l.cursor < l.events.length
    · rw [checkpoint_eq_of_lt l name hlt] at hp ⊢
      have hp2 : pruneCheckpoints
          (fun m => if m = name then some l.cursor else l.checkpoints m)
          l.cursor n = some p := hp
      have := pruneCheckpoints_le _ l.cursor n p hp2
      simp
      omega
    · rw [checkpoint_eq_of_ge l name hlt] at hp ⊢
      have hp2 : (if n = name then some l.cursor else l.checkpoints n) = some p := hp
      by_cases hn : n = name
      · rw [if_pos hn] at hp2
        injection hp2 with hcp
        simp
        omega
      · rw [if_neg hn] at hp2
        have := hk n p hp2
        simp
        omega

/-- Witness for the amended C2 at a concrete reachable log. -/
theorem c2_checkpoint_positions_bounded_witness :
    Reachable ((EventLog.empty String).append "a") ∧
    ((((EventLog.empty String).append "a").append "b").checkpoints "v1" = some 1 →
      (1 : Nat) ≤ (((EventLog.empty String).append "a").append "b").cursor) ∧
    ((((EventLog.empty String).append "a").checkpoint "v1").checkpoints "v1" = some 1 →
      (1 : Nat) ≤ (((EventLog.empty String).append "a").checkpoint "v1").cursor) :=
  ⟨Reachable.append _ "a" Reachable.empty,
    (c2_checkpoint_positions_bounded ((EventLog.empty String).append "a")
      (Reachable.append _ "a" Reachable.empty) "b" "v1" "v1" 1).1,
    (c2_checkpoint_positions_bounded ((EventLog.empty String).append "a")
      (Reachable.append _ "a" Reachable.empty) "b" "v1" "v1" 1).2⟩

/-- C3: when the cursor is strictly below the event-list length, `append`
and `checkpoint` truncate the list to the cursor and prune every
checkpoint recorded beyond the cursor (the pruned dict is exactly
`pruneCheckpoints`); consequently the two claimed scenarios hold: after
append, append, undo(1), append, `redo()` returns `[]`; and after
append, checkpoint "v1", append, undo(2), append, `undo_to("v1")`
returns the absent result `none`. -/
theorem c3_truncation (l : EventLog T) (e : T) (name : String)
    (h : l.cursor < l.events.length) :
    ((l.append e).events = l.events.take l.cursor ++ [Slot.ev e] ∧
      (l.append e).cursor = l.cursor + 1 ∧
      (∀ n, (l.append e).checkpoints n = pruneCheckpoints l.checkpoints l.cursor n) ∧
      (l.checkpoint name).events = l.events.take l.cursor ++ [Slot.cp name] ∧
      (l.checkpoint name).cursor = l.cursor + 1 ∧
      (∀ n, (l.checkpoint name).checkpoints n =
        pruneCheckpoints
          (fun m => if m = name then some l.cursor else l.checkpoints m)
          l.cursor n)) ∧
    (((((((EventLog.empty String).append "a").append "b").undo 1).1.append "c").redo 1).2
      = []) ∧
    (((((((EventLog.empty String).append "a").checkpoint "v1").append "b").undo
        2).1.append "x").undoTo "v1").2 = none := by
  refine ⟨?_, by decide, by decide⟩
  rw [append_eq_of_lt l e h, checkpoint_eq_of_lt l name h]
  exact ⟨rfl, rfl, fun n => rfl, rfl, rfl, fun n => rfl⟩

/-- Witness for C3 at a concrete log with a redo tail. -/
theorem c3_truncation_witness :
    (⟨[Slot.ev "a", Slot.ev "b"], 1, fun _ => none⟩ : EventLog String).cursor
        < (⟨[Slot.ev "a", Slot.ev "b"], 1, fun _ => none⟩ : EventLog String).events.length ∧
    (((⟨[Slot.ev "a", Slot.ev "b"], 1, fun _ => none⟩ : EventLog String).append "c").events
      = [Slot.ev "a", Slot.ev "c"]) :=
  ⟨by decide,
    by
      rw [(c3_truncation (⟨[Slot.ev "a", Slot.ev "b"], 1, fun _ => none⟩ :
        EventLog String) "c" "v1" (by decide)).1.1]
      decide⟩

/-- C4, counterexample: the recorded position of a checkpoint is the index
of the checkpoint's own sentinel slot, not a position after it.  After
`append "a"; checkpoint "v1"` the dict records position 1 and the
sentinel occupies slot 1, so the recorded position does not sit after the
sentinel slot (`¬ 1 > 1`); `undo_to("v1")` lands the cursor at 1,
immediately before the sentinel, leaving the sentinel in the redo tail. -/
theorem c4_sentinel_is_at_recorded_position :
    (((EventLog.empty String).append "a").checkpoint "v1").checkpoints "v1" = some 1 ∧
    ((((EventLog.empty String).append "a").checkpoint "v1").events)[1]?
      = some (Slot.cp "v1") ∧
    ((((EventLog.empty String).append "a").checkpoint "v1").undoTo "v1").1.cursor = 1 ∧
    ¬ (1 : Nat) > 1 := by
  refine ⟨by decide, by decide, by decide, by decide⟩

/-- C4, amended: for a registered name whose recorded position is at most
the cursor (and a cursor inside the list), `undo_to` walks the cursor
back exactly to the recorded position and returns the skipped domain
events most-recent-first (the sentinels of the walked-over slice are
skipped, so the checkpoint's own sentinel is never among the returned
events); and immediately after `checkpoint(name)` the recorded position
is the index of the appended sentinel itself — the cursor therefore lands
immediately before the sentinel slot, not after it. -/
theorem c4_undo_to_walks_to_recorded_position (l : EventLog T) (name : String)
    (target : Nat) (h1 : l.checkpoints name = some target)
    (h2 : target ≤ l.cursor) (h3 : l.cursor ≤ l.events.length) :
    (l.undoTo name).1.cursor = target ∧
    (l.undoTo name).2 =
      some (((l.events.take l.cursor).drop target).reverse.filterMap slotEvent) ∧
    (l.checkpoint name).checkpoints name = some l.cursor ∧
    ((l.checkpoint name).events)[l.cursor]? = some (Slot.cp name) := by
  have hloop := undoToLoop_spec l.events target l.cursor [] h2 h3
  refine ⟨?_, ?_, ?_, ?_⟩
  · simp only [EventLog.undoTo, h1, hloop]
  · simp only [EventLog.undoTo, h1, hloop]
    simp
  · by_cases hlt : l.cursor < l.events.length
    · rw [checkpoint_eq_of_lt l name hlt]
      show pruneCheckpoints
        (fun m => if m = name then some l.cursor else l.checkpoints m)
        l.cursor name = some l.cursor
      unfold pruneCheckpoints
      simp
    · rw [checkpoint_eq_of_ge l name hlt]
      show (if name = name then some l.cursor else l.checkpoints name) = some l.cursor
      simp
  · by_cases hlt : l.cursor < l.events.length
    · rw [checkpoint_eq_of_lt l name hlt]
      show ((l.events.take l.cursor ++ [Slot.cp name])[l.cursor]?) = some (Slot.cp name)
      have hlen : (l.events.take l.cursor).length = l.cursor := by
        simp
        omega
      nth_rewrite 2 [← hlen]
      rw [List.getElem?_concat_length]
    · rw [checkpoint_eq_of_ge l name hlt]
      show ((l.events ++ [Slot.cp name])[l.cursor]?) = some (Slot.cp name)
      have hlen : l.events.length = l.cursor := by omega
      rw [← hlen, List.getElem?_concat_length]

/-- Witness for the amended C4 at a concrete log. -/
theorem c4_undo_to_walks_witness :
    ((((EventLog.empty String).append "a").checkpoint "v1").append "b").checkpoints "v1"
        = some 1 ∧
    (((((EventLog.empty String).append "a").checkpoint "v1").append "b").undoTo
        "v1").1.cursor = 1 ∧
    (((((EventLog.empty String).append "a").checkpoint "v1").append "b").undoTo
        "v1").2 = some ["b"] := by
  have h := c4_undo_to_walks_to_recorded_position
    ((((EventLog.empty String).append "a").checkpoint "v1").append "b") "v1" 1
    (by decide) (by decide) (by decide)
  exact ⟨by decide, h.1, by rw [h.2.1]; decide⟩

/-- C5: from an empty log, after append "a", checkpoint "v1", append "b",
append "c", `undo_to("v1")` returns exactly `["c", "b"]`
(most-recent-first) and leaves the cursor at 1. -/
theorem c5_checkpoint_roundtrip :
    ((((((EventLog.empty String).append "a").checkpoint "v1").append "b").append
        "c").undoTo "v1").2 = some ["c", "b"] ∧
    ((((((EventLog.empty String).append "a").checkpoint "v1").append "b").append
        "c").undoTo "v1").1.cursor = 1 := by
  refine ⟨by decide, by decide⟩

/-- C10: `undo`, `undo_to` and `redo` change only the cursor — the event
list and the checkpoint dict are untouched — and `recent` changes nothing
at all, the cursor included. -/
theorem c10_only_cursor_changes (l : EventLog T) (n m : Nat) (name : String) :
    (l.undo n).1.events = l.events ∧
    (l.undo n).1.checkpoints = l.checkpoints ∧
    (l.undoTo name).1.events = l.events ∧
    (l.undoTo name).1.checkpoints = l.checkpoints ∧
    (l.redo n).1.events = l.events ∧
    (l.redo n).1.checkpoints = l.checkpoints ∧
    (l.recent m).1 = l := by
  refine ⟨rfl, rfl, ?_, ?_, rfl, rfl, rfl⟩
  · cases ht : l.checkpoints name <;> simp [EventLog.undoTo, ht]
  · cases ht : l.checkpoints name <;> simp [EventLog.undoTo, ht]

/-! ## Classifier and tokenizer lemmas -/

theorem matchCellRef_nil : matchCellRef ([] : List Char) = false := by decide

theorem matchRowRef_nil : matchRowRef ([] : List Char) = false := by decide

theorem isCellRange_eq_specRangeShape (t : String) :
    isCellRange t = specRangeShape t := by
  unfold isCellRange specRangeShape
  cases hsp : splitFirst ':'
      (match splitFirst '!' t.toList with | some p => p.2 | none => t.toList) with
  | none => simp only [hsp]
  | some lr =>
    simp only [hsp]
    rcases lr with ⟨left, right⟩
    by_cases hL : left.isEmpty
    · have h0 : left = [] := List.isEmpty_iff.mp hL
      subst h0
      simp [matchCellRef_nil, matchRowRef_nil]
    · by_cases hR : right.isEmpty
      · have h0 : right = [] := List.isEmpty_iff.mp hR
        subst h0
        simp [matchCellRef_nil, matchRowRef_nil]
      · simp [hL, hR]

theorem isKeyValue_eq_specKeyValueCond (t : String) :
    isKeyValue t = specKeyValueCond t := by
  unfold isKeyValue specKeyValueCond
  rw [isCellRange_eq_specRangeShape]
  cases h1 : strStartsWith t "@" <;>
    cases h2 : (decide (("->".toList) <:+: t.toList)) <;>
    cases h3 : strStartsWith t "=" <;>
    cases h4 : specRangeShape t <;>
    cases h5 : strContainsChar t ':' <;>
    simp [h1, h2, h3, h4, h5]

/-- C6: the classification step the parser applies to every non-verb
token agrees, pointwise, with the claimed precedence written out
verbatim (`specClassifyStep`): selector for `@`-tokens, positional for
standalone-quoted tokens, positional when the supplied predicate accepts,
key:value exactly under the claimed five-part condition
(`specKeyValueCond`), otherwise positional in original order. -/
theorem c6_classifier_precedence (p : Option (String → Bool)) (acc : ClassAcc)
    (t : TokenMeta) : classifyStep p acc t = specClassifyStep p acc t := by
  unfold classifyStep specClassifyStep isSelector
  simp only [isKeyValue_eq_specKeyValueCond]

theorem exceptMap_error_exists {α β γ : Type} (f : α → β) (x : Except γ α) :
    (∃ m, x.map f = Except.error m) ↔ ∃ m, x = Except.error m := by
  cases x <;> simp [Except.map]

theorem tokenizeFuel_error_iff (n : Nat) :
    ∀ (cs : List Char),
      (∃ msg, tokenizeFuel n cs = Except.error msg) ↔
        unclosedQuoteFuel n cs = true := by
  induction n with
  | zero => intro cs; simp [tokenizeFuel, unclosedQuoteFuel]
  | succ n ih =>
    intro cs
    cases cs with
    | nil => simp [tokenizeFuel, unclosedQuoteFuel]
    | cons c cs =>
      simp only [tokenizeFuel, unclosedQuoteFuel]
      by_cases hws : isWS c
      · simp only [hws, if_true]
        exact ih cs
      · by_cases hq : isQuoteChar c
        · simp only [hws, hq, if_false, if_true, Bool.false_eq_true]
          cases hcq : consumeQuoted c cs with
          | none => simp
          | some r =>
            rw [exceptMap_error_exists]
            exact ih r.2
        · simp only [hws, hq, if_false, Bool.false_eq_true]
          rw [exceptMap_error_exists]
          exact ih (unquotedScan none (c :: cs)).2

theorem tokenizeFuel_ws (n : Nat) :
    ∀ (cs : List Char), cs.all isWS = true → tokenizeFuel n cs = Except.ok [] := by
  induction n with
  | zero => intro cs _; simp [tokenizeFuel]
  | succ n ih =>
    intro cs hws
    cases cs with
    | nil => simp [tokenizeFuel]
    | cons c cs =>
      simp only [List.all_cons, Bool.and_eq_true] at hws
      simp only [tokenizeFuel, hws.1, if_true]
      exact ih cs hws.2

/-- C7: `tokenize_with_meta` raises (returns `Except.error`) exactly when
the input contains a standalone quote that is opened and never closed
before end of input (`hasUnclosedQuote`, the spec's error condition,
which in particular is never triggered by embedded quotes); it returns
normally on every other input, and an all-whitespace (or empty) input
yields the empty token sequence rather than an error. -/
theorem c7_tokenize_error_condition (s : String) :
    ((∃ msg, tokenizeWithMeta s = Except.error msg) ↔ hasUnclosedQuote s = true) ∧
    (s.toList.all isWS = true → tokenizeWithMeta s = Except.ok []) := by
  constructor
  · exact tokenizeFuel_error_iff s.toList.length s.toList
  · intro hws
    exact tokenizeFuel_ws s.toList.length s.toList hws

/-- Witness for C7: the all-whitespace input "   " tokenizes to the empty
sequence. -/
theorem c7_tokenize_error_condition_witness :
    "   ".toList.all isWS = true ∧ tokenizeWithMeta "   " = Except.ok [] :=
  ⟨by decide, (c7_tokenize_error_condition "   ").2 (by decide)⟩

/-! ## Session dispatcher lemmas -/

theorem runEvents_ok {M E : Type} (step : E → M → Except String M)
    (hstep : ∀ e m, ∃ m2, step e m = Except.ok m2) :
    ∀ (evs : List E) (m : M), ∃ m2, runEvents step evs m = Except.ok m2 := by
  intro evs
  induction evs with
  | nil => intro m; exact ⟨m, rfl⟩
  | cons e rest ih =>
    intro m
    obtain ⟨m2, hm2⟩ := hstep e m
    obtain ⟨m3, hm3⟩ := ih m2
    exact ⟨m3, by simp [runEvents, hm2, hm3]⟩

/-- C8, counterexample: a hook exception raised during dispatch is not
always caught.  With a model loaded, one event in the log, and a
`reverse_event` callback that raises, dispatching `undo` propagates the
exception past the dispatcher boundary instead of returning a failure
result line. -/
theorem c8_hook_exception_escapes :
    dispatchParts raisingRevDispatcher ["undo"] = Except.error "boom" := rfl

/-- C8, amended: the `new`, `open`, `save` and `checkpoint` handlers and
the unknown-action branch always return a single result line — hook
exceptions raised in `on_new`/`on_open`/`on_save` are caught and turned
into failure lines; the `undo` and `redo` handlers return a result line
provided the `reverse_event`/`replay_event` callbacks and
`on_rebuild_indices` do not raise (their exceptions propagate past the
dispatcher, as the spec's propagation policy states). -/
theorem c8_handlers_return_result_lines {M E : Type}
    (d : SessionDispatcher M E) (args : List String) :
    (handleNew d args).isOk = true ∧
    (handleOpen d args).isOk = true ∧
    (handleSave d args).isOk = true ∧
    (handleCheckpoint d args).isOk = true ∧
    ((∀ e m, ∃ m2, d.reverseEvent e m = Except.ok m2) →
      (∀ m, ∃ m2, d.hooks.onRebuildIndices m = Except.ok m2) →
      (handleUndo d args).isOk = true) ∧
    ((∀ e m, ∃ m2, d.replayEvent e m = Except.ok m2) →
      (∀ m, ∃ m2, d.hooks.onRebuildIndices m = Except.ok m2) →
      (handleRedo d args).isOk = true) ∧
    (∀ (cmd : String) (rest : List String),
      strLower cmd ≠ "new" → strLower cmd ≠ "open" → strLower cmd ≠ "save" →
      strLower cmd ≠ "checkpoint" → strLower cmd ≠ "undo" → strLower cmd ≠ "redo" →
      (dispatchParts d (cmd :: rest)).isOk = true) := by
  refine ⟨?_, ?_, ?_, ?_, ?_, ?_, ?_⟩
  · cases h : d.hooks.onNew (buildNewParams args) with
    | ok m => simp [handleNew, h, Except.isOk, Except.toBool]
    | error exc => simp [handleNew, h, Except.isOk, Except.toBool]
  · cases args with
    | nil => rfl
    | cons path rest =>
      cases h : d.hooks.onOpen path with
      | error exc => simp [handleOpen, h, Except.isOk, Except.toBool]
      | ok m =>
        cases h2 : d.hooks.onRebuildIndices m with
        | ok m2 => simp [handleOpen, h, h2, Except.isOk, Except.toBool]
        | error exc => simp [handleOpen, h, h2, Except.isOk, Except.toBool]
  · cases hm : d.model with
    | none => simp [handleSave, hm, Except.isOk, Except.toBool]
    | some m =>
      cases hc : (match resolveSavePath args with
        | some p => some p
        | none => d.filePath) with
      | none => simp [handleSave, hm, hc, Except.isOk, Except.toBool]
      | some p =>
        cases hs : d.hooks.onSave m p with
        | ok u => simp [handleSave, hm, hc, hs, Except.isOk, Except.toBool]
        | error exc => simp [handleSave, hm, hc, hs, Except.isOk, Except.toBool]
  · cases args with
    | nil => rfl
    | cons name rest => rfl
  · intro hrev hreb
    cases hm : d.model with
    | none => simp [handleUndo, hm, Except.isOk, Except.toBool]
    | some m =>
      cases htn : undoToName args with
      | some name =>
        cases hu : d.log.undoTo name with
        | mk lg opt =>
          cases opt with
          | none => simp [handleUndo, hm, htn, hu, Except.isOk, Except.toBool]
          | some revs =>
            by_cases hemp : revs.isEmpty
            · simp [handleUndo, hm, htn, hu, hemp, Except.isOk, Except.toBool]
            · obtain ⟨m2, hm2⟩ := runEvents_ok d.reverseEvent hrev revs m
              obtain ⟨m3, hm3⟩ := hreb m2
              simp [handleUndo, hm, htn, hu, hemp, hm2, hm3, Except.isOk, Except.toBool]
      | none =>
        by_cases hemp : (d.log.undo 1).2.isEmpty
        · simp [handleUndo, hm, htn, hemp, Except.isOk, Except.toBool]
        · obtain ⟨m2, hm2⟩ := runEvents_ok d.reverseEvent hrev (d.log.undo 1).2 m
          obtain ⟨m3, hm3⟩ := hreb m2
          simp [handleUndo, hm, htn, hemp, hm2, hm3, Except.isOk, Except.toBool]
  · intro hrep hreb
    cases hm : d.model with
    | none => simp [handleRedo, hm, Except.isOk, Except.toBool]
    | some m =>
      by_cases hemp : (d.log.redo 1).2.isEmpty
      · simp [handleRedo, hm, hemp, Except.isOk, Except.toBool]
      · obtain ⟨m2, hm2⟩ := runEvents_ok d.replayEvent hrep (d.log.redo 1).2 m
        obtain ⟨m3, hm3⟩ := hreb m2
        simp [handleRedo, hm, hemp, hm2, hm3, Except.isOk, Except.toBool]
  · intro cmd rest h1 h2 h3 h4 h5 h6
    simp only [dispatchParts, List.head?_cons, List.drop_succ_cons, List.drop_zero]
    rw [if_neg h1, if_neg h2, if_neg h3, if_neg h4, if_neg h5, if_neg h6]
    rfl

/-- Witness for the amended C8: on a dispatcher whose callbacks all
succeed, the undo handler and the unknown branch return result lines. -/
theorem c8_handlers_return_result_lines_witness :
    (handleUndo okDispatcher []).isOk = true ∧
    (dispatchParts okDispatcher ["explode"]).isOk = true :=
  ⟨(c8_handlers_return_result_lines okDispatcher []).2.2.2.2.1
      (fun _ m => ⟨m, rfl⟩) (fun m => ⟨m, rfl⟩),
    (c8_handlers_return_result_lines okDispatcher []).2.2.2.2.2.2 "explode" []
      (by decide) (by decide) (by decide) (by decide) (by decide) (by decide)⟩

/-! ## Session `new` params lemmas -/

theorem newParamsLoop_snd (args : List String) :
    ∀ (params : List (String × String)) (positional : List String),
      (newParamsLoop args params positional).2 =
        positional ++ args.filter (fun a => !(newParamCond a)) := by
  induction args with
  | nil => intro params positional; simp [newParamsLoop]
  | cons a rest ih =>
    intro params positional
    by_cases ha : newParamCond a
    · simp [newParamsLoop, ha, ih]
    · simp [newParamsLoop, ha, ih]

theorem dictLookup_dictInsert_same (d : List (String × String)) (k v : String) :
    dictLookup (dictInsert d k v) k = some v := by
  induction d with
  | nil => simp [dictInsert, dictLookup]
  | cons kv rest ih =>
    by_cases hk : kv.1 = k
    · simp [dictInsert, dictLookup, hk]
    · simp [dictInsert, dictLookup, hk, ih]

/-- C9, counterexample: with both a bare token and an explicit `title:`
key among the arguments of `new`, the bare token overwrites the explicit
value — `on_new` receives title "Proj", not "Explicit" — because
`_handle_new` assigns `params["title"] = positional[0]` unconditionally
after the loop. -/
theorem c9_bare_token_overrides_explicit_title :
    (handleNew recordingDispatcher ["Proj", "title:Explicit"]).map
        (fun r => r.1.model) = Except.ok (some [("title", "Proj")]) ∧
    "Proj" ≠ "Explicit" :=
  ⟨rfl, by decide⟩

/-- C9, amended: whenever a bare token (no colon, not starting with a
quote) is present among the arguments of `new`, the first such token is
always used as the title in the params map handed to `on_new`, even when
an explicit `title:` key is supplied; the explicit `title:` value reaches
`on_new` only when no bare token is present, in which case the params map
is exactly the one built from the key:value arguments. -/
theorem c9_bare_token_is_title (args : List String) (t : String) :
    ((args.filter (fun a => !(newParamCond a))).head? = some t →
      dictLookup (buildNewParams args) "title" = some t) ∧
    (args.filter (fun a => !(newParamCond a)) = [] →
      buildNewParams args = (newParamsLoop args [] []).1) := by
  constructor
  · intro hhead
    cases hf : args.filter (fun a => !(newParamCond a)) with
    | nil => rw [hf] at hhead; simp at hhead
    | cons b rest =>
      rw [hf] at hhead
      simp at hhead
      subst hhead
      have h2 : (newParamsLoop args [] []).2 = b :: rest := by
        rw [newParamsLoop_snd args [] [], hf]
        simp
      simp only [buildNewParams, h2]
      exact dictLookup_dictInsert_same _ "title" b
  · intro hnil
    have h2 : (newParamsLoop args [] []).2 = [] := by
      rw [newParamsLoop_snd args [] [], hnil]
      simp
    simp only [buildNewParams, h2]

/-- Witness for the amended C9 at the counterexample's input. -/
theorem c9_bare_token_is_title_witness :
    (["Proj", "title:Explicit"].filter
        (fun a => !(newParamCond a))).head? = some "Proj" ∧
    dictLookup (buildNewParams ["Proj", "title:Explicit"]) "title" = some "Proj" :=
  ⟨by decide,
    (c9_bare_token_is_title ["Proj", "title:Explicit"] "Proj").1 (by decide)⟩

end FcpCore
